import Mathlib

set_option maxHeartbeats 1000000

/-!
Verification of the voice-dictation pipeline core: the LLM retry / backoff /
fallback algorithm of `llm/gemini_formatter.py`, the hotkey state machine of
`core/input_manager.py`, the single-flight guard and guaranteed cleanup of
`main.py`, and the WAV snapshot encoding of `core/audio_capture.py`.

Modelling conventions: Python floats (delays, timestamps, durations) are
modelled as rationals, which is exact for every constant appearing in the code
(1.0, 2.0, 60.0, 0.3, and decimal numbers parsed from server messages).  The
external Gemini API is an oracle mapping each attempt number to an outcome
(success text or exception message); the `random.uniform(0.5, 1.5)` jitter
draws are an oracle stream of rationals; `time.sleep` is recorded as the list
of waits performed.  The Python `wave` module output is the canonical 44-byte
RIFF/WAVE header followed by the PCM data, which is exactly what it writes for
16-bit PCM with no extra chunks.
-/

/-- Outcome of one `generate_content` call against the Gemini service: either
the response text, or the message of the raised exception (the code only ever
inspects `str(e)`). -/
inductive Outcome where
  | ok (text : String)
  | err (msg : String)
deriving DecidableEq

/-- Tests whether the pattern list occurs at the head of the second list. -/
def beginsWith : List Char → List Char → Bool
  | [], _ => true
  | _ :: _, [] => false
  | p :: ps, c :: cs => p = c && beginsWith ps cs

/-- Substring occurrence test on character lists. -/
def containsSub : List Char → List Char → Bool
  | pat, [] => beginsWith pat []
  | pat, c :: cs => beginsWith pat (c :: cs) || containsSub pat cs

/-- Python `pat in s` substring containment on strings. -/
def strContains (s pat : String) : Bool := containsSub pat.toList s.toList

/-- Uppercased string (Python `str.upper`, which the code applies to ASCII
error messages); written as a character-list map, which is exactly what
`String.toUpper` computes. -/
def strUpper (s : String) : String := String.mk (s.toList.map Char.toUpper)

/-- Lowercased string (Python `str.lower` on ASCII error messages). -/
def strLower (s : String) : String := String.mk (s.toList.map Char.toLower)

/-- Throttling classification: `"429" in error_msg or "RESOURCE_EXHAUSTED" in
error_msg` (gemini_formatter.py line 103). -/
def isThrottle (msg : String) : Bool :=
  strContains msg "429" || strContains msg "RESOURCE_EXHAUSTED"

/-- Invalid-credential classification: `"API_KEY" in error_msg.upper() or
"401" in error_msg` (gemini_formatter.py line 127). -/
def isKeyError (msg : String) : Bool :=
  strContains (strUpper msg) "API_KEY" || strContains msg "401"

/-- Unknown-model classification: `"404" in error_msg or "not found" in
error_msg.lower()` (gemini_formatter.py line 132). -/
def isNotFound (msg : String) : Bool :=
  strContains msg "404" || strContains (strLower msg) "not found"

/-- Numeric value of a run of ASCII digits. -/
def natOfDigits (ds : List Char) : ℕ :=
  ds.foldl (fun a c => a * 10 + (c.toNat - 48)) 0

/-- Value of the decimal literal `D1.D2` as a rational; models Python
`float("D1.D2")` exactly. -/
def decimalVal (d1 d2 : List Char) : ℚ :=
  (natOfDigits d1 : ℚ) + (natOfDigits d2 : ℚ) / (10 : ℚ) ^ d2.length

/-- Case-insensitive literal match; on success returns the unconsumed rest. -/
def matchCI : List Char → List Char → Option (List Char)
  | [], cs => some cs
  | _ :: _, [] => none
  | p :: ps, c :: cs => if c.toLower = p.toLower then matchCI ps cs else none

/-- Case-sensitive literal match; on success returns the unconsumed rest. -/
def matchCS : List Char → List Char → Option (List Char)
  | [], cs => some cs
  | _ :: _, [] => none
  | p :: ps, c :: cs => if c = p then matchCS ps cs else none

/-- Tests for a lowercase or uppercase letter s (the IGNORECASE regex tail). -/
def isSChar (c : Char) : Bool := c = 's' || c = 'S'

/-- Tests for a single or double quote character (codes 39 and 34). -/
def isQuoteChar (c : Char) : Bool := c.toNat = 39 || c.toNat = 34

/-- ASCII whitespace class of the regex escape backslash-s. -/
def isSpaceAscii (c : Char) : Bool :=
  c.toNat = 32 || c.toNat = 9 || c.toNat = 10 || c.toNat = 13 ||
  c.toNat = 11 || c.toNat = 12

/-- Anchored attempt of the first pattern of `_parse_retry_delay`, the regex
`retry in (\d+(?:\.\d+)?)s` with IGNORECASE: the literal text, a digit run,
an optional fractional part, then the letter s.  Backtracking inside maximal
digit runs can never succeed (an earlier stop leaves a digit next, which
matches neither the dot nor the letter s), so the greedy deterministic reading
below is exact. -/
def matchRetryIn (cs : List Char) : Option ℚ :=
  match matchCI "retry in ".toList cs with
  | none => none
  | some r0 =>
    let d1 := r0.takeWhile Char.isDigit
    let r1 := r0.dropWhile Char.isDigit
    if d1.isEmpty then none
    else
      match r1 with
      | [] => none
      | c :: r2 =>
        if c = '.' then
          let d2 := r2.takeWhile Char.isDigit
          let r3 := r2.dropWhile Char.isDigit
          if d2.isEmpty then none
          else
            match r3 with
            | [] => none
            | c2 :: _ => if isSChar c2 then some (decimalVal d1 d2) else none
        else if isSChar c then some ((natOfDigits d1 : ℚ)) else none

/-- Leftmost search with the first pattern (Python `re.search`). -/
def searchRetryIn : List Char → Option ℚ
  | [] => matchRetryIn []
  | c :: cs =>
    match matchRetryIn (c :: cs) with
    | some v => some v
    | none => searchRetryIn cs

/-- Anchored attempt of the second pattern of `_parse_retry_delay`: the
literal `retryDelay`, an optional quote, whitespace, a colon or equals sign,
whitespace, an optional quote, then a digit run. -/
def matchRetryDelayField (cs : List Char) : Option ℚ :=
  match matchCS "retryDelay".toList cs with
  | none => none
  | some r0 =>
    let r1 := match r0 with
      | c :: cs2 => if isQuoteChar c then cs2 else r0
      | [] => r0
    match r1.dropWhile isSpaceAscii with
    | [] => none
    | c :: r3 =>
      if c = ':' || c = '=' then
        let r4 := r3.dropWhile isSpaceAscii
        let r5 := match r4 with
          | c2 :: cs3 => if isQuoteChar c2 then cs3 else r4
          | [] => r4
        let d := r5.takeWhile Char.isDigit
        if d.isEmpty then none else some ((natOfDigits d : ℕ) : ℚ)
      else none

/-- Leftmost search with the second pattern (Python `re.search`). -/
def searchRetryDelayField : List Char → Option ℚ
  | [] => matchRetryDelayField []
  | c :: cs =>
    match matchRetryDelayField (c :: cs) with
    | some v => some v
    | none => searchRetryDelayField cs

/-- Server-suggested wait in seconds as extracted by the two patterns of
`GeminiFormatter._parse_retry_delay`, before the fixed 2-second safety margin
is added. -/
def extractServerDelay (msg : String) : Option ℚ :=
  match searchRetryIn msg.toList with
  | some v => some v
  | none => searchRetryDelayField msg.toList

/-- Embedding of `GeminiFormatter._parse_retry_delay`: each matched pattern
returns the extracted seconds plus 2; with no match the function returns 0 and
the caller falls back to exponential backoff. -/
def parseRetryDelay (msg : String) : ℚ :=
  match searchRetryIn msg.toList with
  | some v => v + 2
  | none =>
    match searchRetryDelayField msg.toList with
    | some v => v + 2
    | none => 0

/-- Module constant INITIAL_DELAY of gemini_formatter.py. -/
def INITIAL_DELAY : ℚ := 1

/-- Module constant MAX_DELAY of gemini_formatter.py. -/
def MAX_DELAY : ℚ := 60

/-- Module constant DELAY_MULTIPLIER of gemini_formatter.py. -/
def DELAY_MULTIPLIER : ℚ := 2

/-- Module constant MAX_RETRIES of gemini_formatter.py. -/
def MAX_RETRIES : ℕ := 5

/-- Observable trace of one `_send_with_exponential_backoff` run: the returned
value (`None` on failure), the list of `time.sleep` waits performed, and the
number of `generate_content` calls made. -/
structure BackoffTrace where
  result : Option String
  waits : List ℚ
  calls : ℕ
deriving DecidableEq

/-- Embedding of the retry loop of
`GeminiFormatter._send_with_exponential_backoff` (gemini_formatter.py lines
90-141).  `call` is the oracle giving the outcome of the attempt with each
index, `rand` the oracle stream of `random.uniform(0.5, 1.5)` draws, `fuel`
the remaining loop iterations of `for attempt in range(MAX_RETRIES + 1)`. -/
def backoffLoop (call : ℕ → Outcome) (rand : ℕ → ℚ) : ℕ → ℚ → ℕ → BackoffTrace
  | _, _, 0 => ⟨none, [], 0⟩
  | attempt, delay, fuel + 1 =>
    match call attempt with
    | .ok t => ⟨some t.trim, [], 1⟩
    | .err msg =>
      if isThrottle msg then
        if MAX_RETRIES ≤ attempt then ⟨none, [], 1⟩
        else
          let serverDelay := parseRetryDelay msg
          let wait := if 0 < serverDelay then serverDelay
                      else min (delay * rand attempt) MAX_DELAY
          let rest := backoffLoop call rand (attempt + 1)
            (min (delay * DELAY_MULTIPLIER) MAX_DELAY) fuel
          ⟨rest.result, wait :: rest.waits, rest.calls + 1⟩
      else if isKeyError msg then ⟨none, [], 1⟩
      else if isNotFound msg then ⟨none, [], 1⟩
      else ⟨none, [], 1⟩

/-- Embedding of `GeminiFormatter._send_with_exponential_backoff`: run the
loop from attempt 0 with `delay = INITIAL_DELAY`. -/
def sendWithExponentialBackoff (call : ℕ → Outcome) (rand : ℕ → ℚ) :
    BackoffTrace :=
  backoffLoop call rand 0 INITIAL_DELAY (MAX_RETRIES + 1)

/-- Module constant FALLBACK_MODELS of gemini_formatter.py. -/
def FALLBACK_MODELS : List String := ["gemini-2.0-flash", "gemini-1.5-flash"]

/-- Embedding of the fallback stage of `GeminiFormatter.format_text`: try each
fallback model in list order, skipping the primary model, returning the first
success. -/
def tryFallbacks (api : String → String → ℕ → Outcome)
    (rands : String → ℕ → ℚ) (fullPrompt primaryModel : String) :
    List String → Option String
  | [] => none
  | m :: ms =>
    if m = primaryModel then tryFallbacks api rands fullPrompt primaryModel ms
    else
      match (sendWithExponentialBackoff (api fullPrompt m) (rands m)).result with
      | some t => some t
      | none => tryFallbacks api rands fullPrompt primaryModel ms

/-- Embedding of `GeminiFormatter.format_text` (gemini_formatter.py lines
49-74): substitute the raw text into the template, run the backoff procedure
on the primary model, fall back over FALLBACK_MODELS, and on total failure
return the raw text unchanged.  `api` maps a full prompt and model name to the
per-attempt outcome oracle; `rands` gives each model its jitter stream. -/
def formatText (api : String → String → ℕ → Outcome)
    (rands : String → ℕ → ℚ) (modelName rawText promptTemplate : String) :
    String :=
  let fullPrompt := promptTemplate.replace "{raw_text}" rawText
  match (sendWithExponentialBackoff (api fullPrompt modelName)
      (rands modelName)).result with
  | some t => t
  | none =>
    match tryFallbacks api rands fullPrompt modelName FALLBACK_MODELS with
    | some t => t
    | none => rawText

/-- Outcome of a generate_content attempt, classified as throttling. -/
def isThrottleOutcome : Outcome → Bool
  | .ok _ => false
  | .err m => isThrottle m

/-- Base-delay value before attempt `k` of a run started with delay `d`:
after each throttling response the delay is multiplied by DELAY_MULTIPLIER
and capped at MAX_DELAY. -/
def delayFrom (d : ℚ) : ℕ → ℚ
  | 0 => d
  | k + 1 => delayFrom (min (d * DELAY_MULTIPLIER) MAX_DELAY) k

/-- Base-delay value before attempt `k` of a full run (starting from
INITIAL_DELAY). -/
def delaySeq (k : ℕ) : ℚ := delayFrom INITIAL_DELAY k

/-- Recording state enum of `core/input_manager.py`. -/
inductive RecordingState where
  | idle
  | recordingPTT
  | recordingHF
deriving DecidableEq

/-- Keyboard event type delivered by the hook (`event.event_type`). -/
inductive EventType where
  | down
  | up
deriving DecidableEq

/-- Start / stop side effects emitted by the state machine (the
`on_recording_start` and `on_recording_stop` callbacks). -/
inductive Effect where
  | start
  | stop
deriving DecidableEq

/-- Logical state of `InputManager`: the recording state `_state` and the
debounce timestamp `_last_hf_time` (initialised to 0.0). -/
structure IMState where
  state : RecordingState
  lastHfTime : ℚ
deriving DecidableEq

/-- Embedding of `InputManager._on_ptt_event` (input_manager.py lines 73-84):
key-down starts recording only from Idle (key-repeat protection), key-up stops
only while PTT-recording. -/
def onPtt (s : IMState) (et : EventType) : IMState × List Effect :=
  match et with
  | .down =>
    if s.state = RecordingState.idle then
      (⟨RecordingState.recordingPTT, s.lastHfTime⟩, [Effect.start])
    else (s, [])
  | .up =>
    if s.state = RecordingState.recordingPTT then
      (⟨RecordingState.idle, s.lastHfTime⟩, [Effect.stop])
    else (s, [])

/-- Embedding of `InputManager._on_hf_event` (input_manager.py lines 86-102):
non-down events return immediately; a key-down within 0.3 s of the stored
timestamp is debounced; otherwise the timestamp is updated and the state
toggles between Idle and hands-free recording (no branch fires while
PTT-recording). -/
def onHf (s : IMState) (et : EventType) (now : ℚ) : IMState × List Effect :=
  match et with
  | .up => (s, [])
  | .down =>
    if now - s.lastHfTime < 3/10 then (s, [])
    else
      if s.state = RecordingState.idle then
        (⟨RecordingState.recordingHF, now⟩, [Effect.start])
      else if s.state = RecordingState.recordingHF then
        (⟨RecordingState.idle, now⟩, [Effect.stop])
      else (⟨s.state, now⟩, [])

/-- One raw key event with its delivery timestamp (`time.time()` value). -/
inductive Ev where
  | ptt (et : EventType) (t : ℚ)
  | hf (et : EventType) (t : ℚ)
deriving DecidableEq

/-- Dispatch of one event to the matching hook handler. -/
def stepEv (s : IMState) : Ev → IMState × List Effect
  | .ptt et _ => onPtt s et
  | .hf et t => onHf s et t

/-- Sequential processing of a list of key events (hook callbacks are
serialized on the keyboard hook thread), collecting the emitted effects. -/
def runEvents (s : IMState) : List Ev → IMState × List Effect
  | [] => (s, [])
  | e :: es =>
    let r := stepEv s e
    let rest := runEvents r.1 es
    (rest.1, r.2 ++ rest.2)

/-- Orchestrator state relevant to the single-flight guard of `main.py`:
the `_is_processing` flag and the number of processing threads spawned. -/
structure OrchState where
  isProcessing : Bool
  launched : ℕ
deriving DecidableEq

/-- Embedding of the guard at the end of `YubiIrazu._on_recording_stop`
(main.py lines 133-151): a stop event observed with the flag set returns
without spawning; otherwise the flag is set and one processing thread is
started.  The audio stop and UI updates preceding the guard touch neither
modelled field. -/
def onRecordingStop (s : OrchState) : OrchState :=
  if s.isProcessing then s else ⟨true, s.launched + 1⟩

/-- Observable actions of `YubiIrazu._process_recording`, in program order. -/
inductive Act where
  | transcribeCall
  | updateStatus
  | formatCall
  | hideIndicator
  | outputCall
  | clearFlag
  | trayIdle
deriving DecidableEq

/-- Configuration of the LLM collaborator used by the pipeline: the API
oracle, the jitter streams, and the configured model name. -/
structure LLMCfg where
  api : String → String → ℕ → Outcome
  rands : String → ℕ → ℚ
  model : String

/-- Inputs observed by one run of `_process_recording`: recorded duration,
the optional WAV snapshot, the transcription service (which may raise), the
optional LLM collaborator, the prompt template, and the output sink (which
may raise). -/
structure PipeEnv where
  duration : ℚ
  audioData : Option (List ℕ)
  stt : List ℕ → Except String String
  llm : Option LLMCfg
  prompt : String
  output : String → Except String Unit

/-- Embedding of the `try` body of `YubiIrazu._process_recording` (main.py
lines 155-195): returns the actions performed and whether an exception
escaped the body (to be swallowed by the `except` clause).  Exit paths in
source order: duration under 0.3 s, missing snapshot, transcription error,
empty transcript, then formatting (when an LLM is configured) and output. -/
def processBody (env : PipeEnv) : List Act × Bool :=
  if env.duration < 3/10 then ([], false)
  else
    match env.audioData with
    | none => ([], false)
    | some wav =>
      match env.stt wav with
      | .error _ => ([Act.transcribeCall], true)
      | .ok raw =>
        if raw = "" then ([Act.transcribeCall], false)
        else
          match env.llm with
          | some L =>
            let formatted := formatText L.api L.rands L.model raw env.prompt
            match env.output formatted with
            | .ok _ => ([Act.transcribeCall, Act.updateStatus, Act.formatCall,
                         Act.hideIndicator, Act.outputCall], false)
            | .error _ => ([Act.transcribeCall, Act.updateStatus,
                            Act.formatCall, Act.hideIndicator], true)
          | none =>
            match env.output raw with
            | .ok _ => ([Act.transcribeCall, Act.hideIndicator,
                         Act.outputCall], false)
            | .error _ => ([Act.transcribeCall, Act.hideIndicator], true)

/-- Embedding of `YubiIrazu._process_recording` including its `finally`
clause (main.py lines 197-201): whatever the body did, and whether or not it
raised, the single-flight flag is cleared, the indicator hidden and the tray
returned to idle before the task ends. -/
def processRecording (env : PipeEnv) : List Act :=
  (processBody env).1 ++ [Act.clearFlag, Act.hideIndicator, Act.trayIdle]

/-- Little-endian bytes of an unsigned 16-bit value. -/
def u16le (n : ℕ) : List ℕ := [n % 256, n / 256 % 256]

/-- Little-endian bytes of an unsigned 32-bit value. -/
def u32le (n : ℕ) : List ℕ :=
  [n % 256, n / 256 % 256, n / 65536 % 256, n / 16777216 % 256]

/-- Little-endian two-complement bytes of a signed 16-bit sample, as written
by `numpy.ndarray.tobytes` for dtype int16. -/
def int16le (v : ℤ) : List ℕ := u16le (v % 65536).toNat

/-- Byte values of an ASCII tag string. -/
def asciiBytes (s : String) : List ℕ := s.toList.map Char.toNat

/-- PCM byte stream of a sample list: each sample contributes its two
little-endian bytes, in order. -/
def pcmBytes : List ℤ → List ℕ
  | [] => []
  | v :: vs => int16le v ++ pcmBytes vs

/-- WAV container as produced by `AudioCapture._to_wav` through the Python
`wave` module for 16-bit PCM: the canonical 44-byte RIFF/WAVE header (RIFF
size, WAVE tag, fmt chunk of size 16 with PCM format 1, channel count, sample
rate, byte rate, block align, 16 bits per sample, data chunk size) followed by
the raw PCM data. -/
def wavBytes (sampleRate channels : ℕ) (samples : List ℤ) : List ℕ :=
  let data := pcmBytes samples
  asciiBytes "RIFF" ++ u32le (36 + data.length) ++ asciiBytes "WAVE" ++
  asciiBytes "fmt " ++ u32le 16 ++ u16le 1 ++ u16le channels ++
  u32le sampleRate ++ u32le (sampleRate * channels * 2) ++
  u16le (channels * 2) ++ u16le 16 ++
  asciiBytes "data" ++ u32le (pcmBytes samples).length ++ pcmBytes samples

/-- Logical state of `AudioCapture` (audio_capture.py): sample rate, channel
count, running flag, and the appended frames, each frame being its samples in
arrival order (a frame of N rows and C channels flattens row-major into one
sample list, as `numpy.concatenate(frames).flatten()` does). -/
structure AudioCaptureM where
  sample_rate : ℕ
  channels : ℕ
  is_recording : Bool
  frames : List (List ℤ)

/-- Embedding of `AudioCapture._to_wav`: concatenate the frames and wrap the
samples in the WAV container. -/
def toWav (a : AudioCaptureM) (frames : List (List ℤ)) : List ℕ :=
  wavBytes a.sample_rate a.channels frames.flatten

/-- Embedding of `AudioCapture.get_audio_data` (audio_capture.py lines
54-58): `None` when no frames were captured, otherwise the full WAV
snapshot. -/
def getAudioData (a : AudioCaptureM) : Option (List ℕ) :=
  if a.frames.isEmpty then none else some (toWav a a.frames)

/-- Decoder of a little-endian 16-bit field at the head of a byte list. -/
def readU16 (l : List ℕ) : ℕ := l.getD 0 0 + 256 * l.getD 1 0

/-- Decoder of a little-endian 32-bit field at the head of a byte list. -/
def readU32 (l : List ℕ) : ℕ :=
  l.getD 0 0 + 256 * l.getD 1 0 + 65536 * l.getD 2 0 + 16777216 * l.getD 3 0

/-! ## Helper lemmas for the backoff loop -/

/-- Outcome of a run step on a non-throttling error: every non-throttling
branch (key error, model not found, unclassified) returns failure at once,
with no sleep and no further call. -/
theorem backoffLoop_nonthrottle (call : ℕ → Outcome) (rand : ℕ → ℚ)
    (att : ℕ) (d : ℚ) (f : ℕ) (msg : String)
    (hc : call att = Outcome.err msg) (hnt : isThrottle msg = false) :
    backoffLoop call rand att d (f + 1) = ⟨none, [], 1⟩ := by
  unfold backoffLoop
  rw [hc]
  simp only [hnt, Bool.false_eq_true, if_false]
  by_cases h1 : isKeyError msg = true
  · simp [h1]
  · by_cases h2 : isNotFound msg = true
    · simp [h1, h2]
    · simp [h1, h2]

/-- Behaviour of the loop when every remaining attempt throttles and the
attempt budget runs out exactly at MAX_RETRIES: failure, one call per
iteration, one sleep per iteration except the last. -/
theorem backoffLoop_throttle_exhaust (call : ℕ → Outcome) (rand : ℕ → ℚ)
    (h : ∀ k, k ≤ MAX_RETRIES → isThrottleOutcome (call k) = true) :
    ∀ fuel att d, att + fuel = MAX_RETRIES + 1 →
      (backoffLoop call rand att d fuel).result = none
      ∧ (backoffLoop call rand att d fuel).calls = fuel
      ∧ (backoffLoop call rand att d fuel).waits.length = fuel - 1 := by
  intro fuel
  induction fuel with
  | zero => intro att d h6; simp [backoffLoop]
  | succ f ih =>
    intro att d h6
    have hatt : att ≤ MAX_RETRIES := by omega
    have hth := h att hatt
    cases hc : call att with
    | ok t => rw [hc] at hth; simp [isThrottleOutcome] at hth
    | err msg =>
      rw [hc] at hth
      simp only [isThrottleOutcome] at hth
      by_cases hlast : MAX_RETRIES ≤ att
      · have hf0 : f = 0 := by omega
        subst hf0
        simp [backoffLoop, hc, hth, hlast]
      · have hrec := ih (att + 1) (min (d * DELAY_MULTIPLIER) MAX_DELAY)
          (by omega)
        have hf1 : 1 ≤ f := by omega
        simp only [backoffLoop, hc, hth, if_true, hlast, if_false]
        refine ⟨hrec.1, ?_, ?_⟩
        · simp [hrec.2.1]
        · simp [hrec.2.2]
          omega

/-- C2: against a single model whose every call throttles, the backoff
procedure makes exactly 6 generate calls (the initial attempt plus 5
retries), performs exactly 5 sleeps, and then gives the model up, returning
failure without a sixth sleep. -/
theorem throttle_six_attempts_five_sleeps (call : ℕ → Outcome)
    (rand : ℕ → ℚ)
    (h : ∀ k, k ≤ MAX_RETRIES → isThrottleOutcome (call k) = true) :
    (sendWithExponentialBackoff call rand).calls = 6
    ∧ (sendWithExponentialBackoff call rand).waits.length = 5
    ∧ (sendWithExponentialBackoff call rand).result = none := by
  have h6 := backoffLoop_throttle_exhaust call rand h (MAX_RETRIES + 1) 0
    INITIAL_DELAY (by omega)
  exact ⟨h6.2.1, h6.2.2, h6.1⟩


/-- C1: format never fails outward.  If the backoff run of the primary model
and of every distinct fallback model returns failure, the call returns the
original unformatted raw text; the embedding is a total function into String,
so no error can reach the caller. -/
theorem format_degrades_to_raw (api : String → String → ℕ → Outcome)
    (rands : String → ℕ → ℚ) (model raw tmpl : String)
    (hp : (sendWithExponentialBackoff
        (api (tmpl.replace "{raw_text}" raw) model) (rands model)).result =
        none)
    (hf : ∀ m ∈ FALLBACK_MODELS, m ≠ model →
      (sendWithExponentialBackoff
        (api (tmpl.replace "{raw_text}" raw) m) (rands m)).result = none) :
    formatText api rands model raw tmpl = raw := by
  have h1 := hf "gemini-2.0-flash" (by simp [FALLBACK_MODELS])
  have h2 := hf "gemini-1.5-flash" (by simp [FALLBACK_MODELS])
  by_cases e1 : "gemini-2.0-flash" = model
  · by_cases e2 : "gemini-1.5-flash" = model
    · simp [formatText, tryFallbacks, FALLBACK_MODELS, hp, e1, e2]
    · simp [formatText, tryFallbacks, FALLBACK_MODELS, hp, e1, e2, h2 e2]
  · by_cases e2 : "gemini-1.5-flash" = model
    · simp [formatText, tryFallbacks, FALLBACK_MODELS, hp, e1, e2, h1 e1]
    · simp [formatText, tryFallbacks, FALLBACK_MODELS, hp, e1, e2, h1 e1,
        h2 e2]


/-- Behaviour of the loop when the first `a` attempts throttle and attempt
`a` fails with a non-throttling error: the run stops right there with `a + 1`
calls and only the `a` sleeps caused by the earlier throttles. -/
theorem backoffLoop_abort (call : ℕ → Outcome) (rand : ℕ → ℚ) (msg : String)
    (hnt : isThrottle msg = false) :
    ∀ a att d fuel, a < fuel → att + a ≤ MAX_RETRIES →
      (∀ k, k < a → isThrottleOutcome (call (att + k)) = true) →
      call (att + a) = Outcome.err msg →
      (backoffLoop call rand att d fuel).result = none
      ∧ (backoffLoop call rand att d fuel).calls = a + 1
      ∧ (backoffLoop call rand att d fuel).waits.length = a := by
  intro a
  induction a with
  | zero =>
    intro att d fuel hfuel hle hprev hc
    obtain ⟨f, rfl⟩ : ∃ f, fuel = f + 1 := ⟨fuel - 1, by omega⟩
    rw [Nat.add_zero] at hc
    rw [backoffLoop_nonthrottle call rand att d f msg hc hnt]
    exact ⟨rfl, rfl, rfl⟩
  | succ a ih =>
    intro att d fuel hfuel hle hprev hc
    obtain ⟨f, rfl⟩ : ∃ f, fuel = f + 1 := ⟨fuel - 1, by omega⟩
    have h0 := hprev 0 (by omega)
    rw [Nat.add_zero] at h0
    cases hc0 : call att with
    | ok t => rw [hc0] at h0; simp [isThrottleOutcome] at h0
    | err m0 =>
      rw [hc0] at h0
      simp only [isThrottleOutcome] at h0
      have hnl : ¬ MAX_RETRIES ≤ att := by omega
      have hrec := ih (att + 1) (min (d * DELAY_MULTIPLIER) MAX_DELAY) f
        (by omega) (by omega)
        (fun k hk => by
          have := hprev (k + 1) (by omega)
          rwa [show att + (k + 1) = att + 1 + k by omega] at this)
        (by rwa [show att + 1 + a = att + (a + 1) by omega])
      simp only [backoffLoop, hc0, h0, if_true, hnl, if_false]
      refine ⟨hrec.1, ?_, ?_⟩
      · simp [hrec.2.1]
      · simp [hrec.2.2]

/-- C4: a non-throttling failure (invalid credential, unknown model, or any
unclassified error) at any attempt aborts the current model at once: the
failing call is the last one against that model, no sleep follows it, the run
reports failure, and `format_text` proceeds to the fallback-model stage over
the fixed priority list. -/
theorem nonthrottle_aborts_to_fallback (api : String → String → ℕ → Outcome)
    (rands : String → ℕ → ℚ) (model raw tmpl msg : String) (a : ℕ)
    (ha : a ≤ MAX_RETRIES)
    (hprev : ∀ k, k < a → isThrottleOutcome
        (api (tmpl.replace "{raw_text}" raw) model k) = true)
    (hc : api (tmpl.replace "{raw_text}" raw) model a = Outcome.err msg)
    (hnt : isThrottle msg = false) :
    (sendWithExponentialBackoff (api (tmpl.replace "{raw_text}" raw) model)
        (rands model)).result = none
    ∧ (sendWithExponentialBackoff (api (tmpl.replace "{raw_text}" raw) model)
        (rands model)).calls = a + 1
    ∧ (sendWithExponentialBackoff (api (tmpl.replace "{raw_text}" raw) model)
        (rands model)).waits.length = a
    ∧ formatText api rands model raw tmpl =
        (match tryFallbacks api rands (tmpl.replace "{raw_text}" raw) model
            FALLBACK_MODELS with
         | some t => t
         | none => raw) := by
  have h := backoffLoop_abort (api (tmpl.replace "{raw_text}" raw) model)
    (rands model) msg hnt a 0 INITIAL_DELAY (MAX_RETRIES + 1) (by omega)
    (by omega) (fun k hk => by simpa using hprev k hk) (by simpa using hc)
  have hres : (sendWithExponentialBackoff
      (api (tmpl.replace "{raw_text}" raw) model) (rands model)).result =
      none := h.1
  refine ⟨h.1, h.2.1, h.2.2, ?_⟩
  simp only [formatText, hres]


/-- Nonnegative value of a digit run viewed as a rational. -/
theorem natOfDigits_cast_nonneg (d : List Char) : 0 ≤ ((natOfDigits d : ℕ) : ℚ) := by
  positivity

/-- Nonnegative value of a parsed decimal literal. -/
theorem decimalVal_nonneg (d1 d2 : List Char) : 0 ≤ decimalVal d1 d2 := by
  unfold decimalVal
  positivity

/-- Every value produced by the first anchored pattern is nonnegative. -/
theorem matchRetryIn_nonneg (cs : List Char) (v : ℚ)
    (h : matchRetryIn cs = some v) : 0 ≤ v := by
  unfold matchRetryIn at h
  dsimp only at h
  split at h
  · exact absurd h (by simp)
  · split at h
    · exact absurd h (by simp)
    · split at h
      · exact absurd h (by simp)
      · split at h
        · split at h
          · exact absurd h (by simp)
          · split at h
            · exact absurd h (by simp)
            · split at h
              · cases h; exact decimalVal_nonneg _ _
              · exact absurd h (by simp)
        · split at h
          · cases h; exact natOfDigits_cast_nonneg _
          · exact absurd h (by simp)

/-- Every value produced by the first search is nonnegative. -/
theorem searchRetryIn_nonneg : ∀ cs v, searchRetryIn cs = some v → 0 ≤ v := by
  intro cs
  induction cs with
  | nil =>
    intro v h
    exact matchRetryIn_nonneg [] v (by simpa [searchRetryIn] using h)
  | cons c cs ih =>
    intro v h
    unfold searchRetryIn at h
    cases hm : matchRetryIn (c :: cs) with
    | some w =>
      rw [hm] at h
      cases h
      exact matchRetryIn_nonneg _ _ hm
    | none =>
      rw [hm] at h
      exact ih v h

/-- Every value produced by the second anchored pattern is nonnegative. -/
theorem matchRetryDelayField_nonneg (cs : List Char) (v : ℚ)
    (h : matchRetryDelayField cs = some v) : 0 ≤ v := by
  unfold matchRetryDelayField at h
  dsimp only at h
  split at h
  · exact absurd h (by simp)
  · split at h
    · exact absurd h (by simp)
    · split at h
      · split at h
        · exact absurd h (by simp)
        · cases h; exact natOfDigits_cast_nonneg _
      · exact absurd h (by simp)

/-- Every value produced by the second search is nonnegative. -/
theorem searchRetryDelayField_nonneg :
    ∀ cs v, searchRetryDelayField cs = some v → 0 ≤ v := by
  intro cs
  induction cs with
  | nil =>
    intro v h
    exact matchRetryDelayField_nonneg [] v
      (by simpa [searchRetryDelayField] using h)
  | cons c cs ih =>
    intro v h
    unfold searchRetryDelayField at h
    cases hm : matchRetryDelayField (c :: cs) with
    | some w =>
      rw [hm] at h
      cases h
      exact matchRetryDelayField_nonneg _ _ hm
    | none =>
      rw [hm] at h
      exact ih v h

/-- Every extracted server delay is nonnegative. -/
theorem extractServerDelay_nonneg (msg : String) (v : ℚ)
    (h : extractServerDelay msg = some v) : 0 ≤ v := by
  unfold extractServerDelay at h
  cases h1 : searchRetryIn msg.toList with
  | some w =>
    rw [h1] at h
    cases h
    exact searchRetryIn_nonneg _ _ h1
  | none =>
    rw [h1] at h
    exact searchRetryDelayField_nonneg _ _ h

/-- The parsed retry delay is the extracted value plus the fixed 2-second
margin, or 0 when no pattern matches. -/
theorem parseRetryDelay_eq (msg : String) :
    parseRetryDelay msg =
      (match extractServerDelay msg with
       | some v => v + 2
       | none => 0) := by
  unfold parseRetryDelay extractServerDelay
  cases h1 : searchRetryIn msg.toList with
  | some w => rfl
  | none => cases h2 : searchRetryDelayField msg.toList with
    | some w => rfl
    | none => rfl

/-- Unfolding of the capped-doubling delay recurrence one step from the
outside. -/
theorem delayFrom_succ (d : ℚ) :
    ∀ k, delayFrom d (k + 1) =
      min (delayFrom d k * DELAY_MULTIPLIER) MAX_DELAY := by
  intro k
  induction k generalizing d with
  | zero => rfl
  | succ k ih =>
    rw [show delayFrom d (k + 1 + 1) =
      delayFrom (min (d * DELAY_MULTIPLIER) MAX_DELAY) (k + 1) from rfl, ih]
    rfl

/-- Every performed wait of a backoff run comes from a throttling response
and follows the wait policy: the parsed server delay when positive, otherwise
the current base delay jittered by the drawn factor and capped. -/
theorem backoffLoop_wait_formula (call : ℕ → Outcome) (rand : ℕ → ℚ) :
    ∀ fuel att d k, k < (backoffLoop call rand att d fuel).waits.length →
      ∃ msg, call (att + k) = Outcome.err msg ∧ isThrottle msg = true ∧
        (backoffLoop call rand att d fuel).waits.getD k 0 =
          (if 0 < parseRetryDelay msg then parseRetryDelay msg
           else min (delayFrom d k * rand (att + k)) MAX_DELAY) := by
  intro fuel
  induction fuel with
  | zero => intro att d k hk; simp [backoffLoop] at hk
  | succ f ih =>
    intro att d k hk
    cases hc : call att with
    | ok t => simp [backoffLoop, hc] at hk
    | err msg =>
      by_cases hth : isThrottle msg = true
      · by_cases hlast : MAX_RETRIES ≤ att
        · simp [backoffLoop, hc, hth, hlast] at hk
        · cases k with
          | zero =>
            refine ⟨msg, by simpa using hc, hth, ?_⟩
            simp [backoffLoop, hc, hth, hlast, delayFrom]
          | succ k =>
            have hk2 : k < (backoffLoop call rand (att + 1)
                (min (d * DELAY_MULTIPLIER) MAX_DELAY) f).waits.length := by
              simp [backoffLoop, hc, hth, hlast] at hk
              omega
            obtain ⟨m, hm, hthm, heq⟩ := ih (att + 1)
              (min (d * DELAY_MULTIPLIER) MAX_DELAY) k hk2
            refine ⟨m, by rwa [show att + (k + 1) = att + 1 + k by omega],
              hthm, ?_⟩
            have hstep : (backoffLoop call rand att d (f + 1)).waits.getD
                (k + 1) 0 = (backoffLoop call rand (att + 1)
                (min (d * DELAY_MULTIPLIER) MAX_DELAY) f).waits.getD k 0 := by
              simp [backoffLoop, hc, hth, hlast]
            rw [hstep, heq, show delayFrom d (k + 1) =
              delayFrom (min (d * DELAY_MULTIPLIER) MAX_DELAY) k from rfl,
              show att + (k + 1) = att + 1 + k by omega]
      · have hth2 : isThrottle msg = false := by simpa using hth
        rw [backoffLoop_nonthrottle call rand att d f msg hc hth2] at hk
        simp at hk

/-- C3: wait policy of a backoff run.  For every throttling response that is
followed by another attempt: when the error detail carries a server-suggested
wait, the performed wait is that value plus exactly 2 seconds; otherwise it is
the current base delay times the drawn uniform factor (in the unit interval
around 1 given by the jitter bound), capped at MAX_DELAY; and the base delay
starts at INITIAL_DELAY and is multiplied by DELAY_MULTIPLIER, capped at
MAX_DELAY, after each throttling response. -/
theorem throttle_wait_policy (call : ℕ → Outcome) (rand : ℕ → ℚ)
    (hrand : ∀ i, 1/2 ≤ rand i ∧ rand i ≤ 3/2) (k : ℕ) (msg : String)
    (hk : k < (sendWithExponentialBackoff call rand).waits.length)
    (hmsg : call k = Outcome.err msg) :
    ((∃ v, extractServerDelay msg = some v ∧
        (sendWithExponentialBackoff call rand).waits.getD k 0 = v + 2)
     ∨ (extractServerDelay msg = none ∧
        (sendWithExponentialBackoff call rand).waits.getD k 0 =
          min (delaySeq k * rand k) MAX_DELAY))
    ∧ (1/2 ≤ rand k ∧ rand k ≤ 3/2)
    ∧ delaySeq 0 = INITIAL_DELAY
    ∧ (∀ j, delaySeq (j + 1) =
        min (delaySeq j * DELAY_MULTIPLIER) MAX_DELAY) := by
  obtain ⟨m, hm, hth, heq⟩ := backoffLoop_wait_formula call rand
    (MAX_RETRIES + 1) 0 INITIAL_DELAY k
    (by simpa [sendWithExponentialBackoff] using hk)
  rw [Nat.zero_add] at hm heq
  have hmm : Outcome.err msg = Outcome.err m := hmsg.symm.trans hm
  injection hmm with hmm
  subst hmm
  refine ⟨?_, hrand k, rfl, fun j => delayFrom_succ INITIAL_DELAY j⟩
  rw [parseRetryDelay_eq] at heq
  cases hex : extractServerDelay msg with
  | some v =>
    left
    refine ⟨v, rfl, ?_⟩
    rw [hex] at heq
    dsimp only at heq
    have hv : 0 ≤ v := extractServerDelay_nonneg msg v hex
    rw [if_pos (add_pos_of_nonneg_of_pos hv two_pos)] at heq
    simpa [sendWithExponentialBackoff] using heq
  | none =>
    right
    rw [hex] at heq
    dsimp only at heq
    rw [if_neg (by norm_num)] at heq
    exact ⟨rfl, by simpa [sendWithExponentialBackoff, delaySeq] using heq⟩


/-- C5: starting from Idle, a PTT key-down followed by a PTT key-up fires
exactly one start and one stop effect in that order and returns the machine
to Idle; an additional PTT key-down while already PTT-recording (key repeat)
changes no state and fires no effect. -/
theorem ptt_down_up_once (s : IMState) (hs : s.state = RecordingState.idle)
    (t1 t2 : ℚ) :
    (runEvents s [Ev.ptt EventType.down t1, Ev.ptt EventType.up t2]).2 =
      [Effect.start, Effect.stop]
    ∧ (runEvents s [Ev.ptt EventType.down t1, Ev.ptt EventType.up t2]).1.state
      = RecordingState.idle
    ∧ (∀ s2 : IMState, s2.state = RecordingState.recordingPTT →
        onPtt s2 EventType.down = (s2, [])) := by
  refine ⟨?_, ?_, ?_⟩
  · simp [runEvents, stepEv, onPtt, hs]
  · simp [runEvents, stepEv, onPtt, hs]
  · intro s2 h2
    simp [onPtt, h2]

/-- C6: an HF key-down within 0.3 s of the stored debounce timestamp (the
previous debounce-passing, hence previous accepted, HF key-down) is discarded
entirely — no state change, no effect; an HF key-down 0.3 s or more after it
toggles Idle to hands-free recording with a start effect, and hands-free
recording to Idle with a stop effect. -/
theorem hf_debounce_toggle (s : IMState) (now : ℚ) :
    (now - s.lastHfTime < 3/10 → onHf s EventType.down now = (s, []))
    ∧ (3/10 ≤ now - s.lastHfTime → s.state = RecordingState.idle →
        onHf s EventType.down now =
          (⟨RecordingState.recordingHF, now⟩, [Effect.start]))
    ∧ (3/10 ≤ now - s.lastHfTime → s.state = RecordingState.recordingHF →
        onHf s EventType.down now =
          (⟨RecordingState.idle, now⟩, [Effect.stop])) := by
  refine ⟨fun h => by simp [onHf, h], fun h hs => ?_, fun h hs => ?_⟩
  · simp [onHf, hs, not_lt.mpr h]
  · simp [onHf, hs, not_lt.mpr h]

/-- C7 (amended): an HF key-down delivered while PTT-recording leaves the
recording state at RecordingPTT and fires no effect, but it is not a complete
no-op: when it passes the 0.3 s debounce it still updates the debounce
timestamp, which can discard a subsequent HF key-down arriving within 0.3 s
of it. -/
theorem hf_during_ptt_amended (s : IMState) (now : ℚ)
    (hs : s.state = RecordingState.recordingPTT) :
    (onHf s EventType.down now).1.state = RecordingState.recordingPTT
    ∧ (onHf s EventType.down now).2 = []
    ∧ (3/10 ≤ now - s.lastHfTime →
        (onHf s EventType.down now).1.lastHfTime = now)
    ∧ (now - s.lastHfTime < 3/10 → (onHf s EventType.down now).1 = s) := by
  by_cases hd : now - s.lastHfTime < 3/10
  · exact ⟨by simp [onHf, hd, hs], by simp [onHf, hd],
      fun h => absurd hd (not_lt.mpr h), fun _ => by simp [onHf, hd]⟩
  · exact ⟨by simp [onHf, hd, hs], by simp [onHf, hd, hs],
      fun _ => by simp [onHf, hd, hs], fun h => absurd h hd⟩

/-- C8: the single-flight guard.  A stop with the processing flag clear
launches exactly one task and sets the flag; a second stop while the flag is
set is dropped without queueing (the orchestrator state is unchanged); one
processing task performs at most one output delivery, and exactly one on the
successful path. -/
theorem single_flight_stop (s : OrchState) (h : s.isProcessing = false)
    (env : PipeEnv) :
    (onRecordingStop (onRecordingStop s)).launched = s.launched + 1
    ∧ onRecordingStop (onRecordingStop s) = onRecordingStop s
    ∧ (processRecording env).count Act.outputCall ≤ 1
    ∧ (∀ wav raw, ¬ env.duration < 3/10 → env.audioData = some wav →
        env.stt wav = Except.ok raw → raw ≠ "" →
        (∀ t, env.output t = Except.ok ()) →
        (processRecording env).count Act.outputCall = 1) := by
  have hcount : (processBody env).1.count Act.outputCall ≤ 1 := by
    unfold processBody
    split
    · simp
    · split
      · simp
      · split
        · simp
        · split
          · simp
          · split
            · dsimp only
              split <;> simp
            · split <;> simp
  refine ⟨by simp [onRecordingStop, h], by simp [onRecordingStop, h], ?_, ?_⟩
  · simpa [processRecording, List.count_append] using hcount
  · intro wav raw hd hwav hstt hraw hout
    cases hllm : env.llm <;>
      simp [processRecording, processBody, hd, hwav, hstt, hraw, hout, hllm,
        List.count_append, List.count_cons]

/-- C9: on every exit path of the processing task — the too-short check, the
missing-snapshot check, the empty-transcript check, full completion, or an
error raised by any stage — the cleanup actions run last: the single-flight
flag is cleared and the idle UI state restored before the task ends; and a
recording shorter than 0.3 s triggers neither transcription nor output. -/
theorem processing_always_cleans_up (env : PipeEnv) :
    List.IsSuffix [Act.clearFlag, Act.hideIndicator, Act.trayIdle]
      (processRecording env)
    ∧ (env.duration < 3/10 →
        processRecording env =
          [Act.clearFlag, Act.hideIndicator, Act.trayIdle]
        ∧ Act.transcribeCall ∉ processRecording env
        ∧ Act.outputCall ∉ processRecording env) := by
  constructor
  · exact ⟨(processBody env).1, rfl⟩
  · intro hd
    have hb : processBody env = ([], false) := by
      unfold processBody
      rw [if_pos hd]
    refine ⟨by simp [processRecording, hb], ?_, ?_⟩
    · simp [processRecording, hb]
    · simp [processRecording, hb]

/-- Length of the PCM byte stream: two bytes per sample. -/
theorem pcmBytes_length (l : List ℤ) : (pcmBytes l).length = 2 * l.length := by
  induction l with
  | nil => rfl
  | cons v vs ih =>
    simp [pcmBytes, int16le, u16le, ih]
    omega

/-- Drop of a known-length prefix of a concatenation. -/
theorem drop_of_append {α : Type} (n : ℕ) (p q w : List α) (hw : w = p ++ q)
    (hp : p.length = n) : w.drop n = q := by
  subst hw
  rw [← hp, List.drop_left]

/-- Take of a known-length prefix of a concatenation. -/
theorem take_of_append {α : Type} (n : ℕ) (p q w : List α) (hw : w = p ++ q)
    (hp : p.length = n) : w.take n = p := by
  subst hw
  rw [← hp, List.take_left]

/-- Length of a 16-bit little-endian field. -/
theorem u16le_length (n : ℕ) : (u16le n).length = 2 := rfl

/-- Length of a 32-bit little-endian field. -/
theorem u32le_length (n : ℕ) : (u32le n).length = 4 := rfl

/-- Length of an ASCII tag. -/
theorem asciiBytes_length (s : String) : (asciiBytes s).length = s.length := by
  rw [asciiBytes, List.length_map]
  rfl

/-- Decoding a 16-bit field at the head of a byte stream. -/
theorem readU16_cons (x : ℕ) (r : List ℕ) :
    readU16 (u16le x ++ r) = x % 256 + 256 * (x / 256 % 256) := rfl

/-- Decoding a 32-bit field at the head of a byte stream. -/
theorem readU32_cons (x : ℕ) (r : List ℕ) :
    readU32 (u32le x ++ r) =
      x % 256 + 256 * (x / 256 % 256) + 65536 * (x / 65536 % 256) +
      16777216 * (x / 16777216 % 256) := rfl

/-- C10: with zero frames the snapshot is none; otherwise it is a valid WAV
container: RIFF magic and chunk size, WAVE form, a 16-byte fmt chunk with PCM
format 1, the configured channel count and sample rate, 16 bits per sample,
and a data chunk that is byte-for-byte the concatenation of the appended
frames' samples as 16-bit little-endian PCM in arrival order. -/
theorem wav_snapshot_exact (a : AudioCaptureM)
    (hch : a.channels < 65536) (hsr : a.sample_rate < 4294967296)
    (hdl : 36 + 2 * a.frames.flatten.length < 4294967296) :
    (a.frames = [] → getAudioData a = none)
    ∧ (∀ w, getAudioData a = some w →
        a.frames ≠ []
        ∧ w.take 4 = asciiBytes "RIFF"
        ∧ readU32 (w.drop 4) = 36 + 2 * a.frames.flatten.length
        ∧ (w.drop 8).take 4 = asciiBytes "WAVE"
        ∧ (w.drop 12).take 4 = asciiBytes "fmt "
        ∧ readU32 (w.drop 16) = 16
        ∧ readU16 (w.drop 20) = 1
        ∧ readU16 (w.drop 22) = a.channels
        ∧ readU32 (w.drop 24) = a.sample_rate
        ∧ readU16 (w.drop 34) = 16
        ∧ (w.drop 36).take 4 = asciiBytes "data"
        ∧ readU32 (w.drop 40) = 2 * a.frames.flatten.length
        ∧ w.drop 44 = pcmBytes a.frames.flatten
        ∧ w.length = 44 + 2 * a.frames.flatten.length) := by
  have hpl : (pcmBytes a.frames.flatten).length =
      2 * a.frames.flatten.length := pcmBytes_length a.frames.flatten
  constructor
  · intro h
    simp [getAudioData, h]
  · intro w hw
    unfold getAudioData at hw
    by_cases hne : a.frames.isEmpty
    · rw [if_pos hne] at hw
      exact absurd hw (by simp)
    · rw [if_neg hne] at hw
      have hwv : w = toWav a a.frames := (Option.some.inj hw).symm
      have hfr : a.frames ≠ [] := by simpa [List.isEmpty_iff] using hne
      subst hwv
      have e4 : (toWav a a.frames).drop 4 =
          u32le (36 + (pcmBytes a.frames.flatten).length) ++
          (asciiBytes "WAVE" ++
          asciiBytes "fmt " ++
          u32le 16 ++
          u16le 1 ++
          u16le a.channels ++
          u32le a.sample_rate ++
          u32le (a.sample_rate * a.channels * 2) ++
          u16le (a.channels * 2) ++
          u16le 16 ++
          asciiBytes "data" ++
          u32le (pcmBytes a.frames.flatten).length ++
          pcmBytes a.frames.flatten) := by
        refine drop_of_append 4 (asciiBytes "RIFF") _ _ ?_ ?_
        · simp only [toWav, wavBytes, List.append_assoc]
        · simp only [List.length_append, asciiBytes_length, u16le_length,
            u32le_length]
          decide
      have e8 : (toWav a a.frames).drop 8 =
          asciiBytes "WAVE" ++
          (asciiBytes "fmt " ++
          u32le 16 ++
          u16le 1 ++
          u16le a.channels ++
          u32le a.sample_rate ++
          u32le (a.sample_rate * a.channels * 2) ++
          u16le (a.channels * 2) ++
          u16le 16 ++
          asciiBytes "data" ++
          u32le (pcmBytes a.frames.flatten).length ++
          pcmBytes a.frames.flatten) := by
        refine drop_of_append 8 (asciiBytes "RIFF" ++
          u32le (36 + (pcmBytes a.frames.flatten).length)) _ _ ?_ ?_
        · simp only [toWav, wavBytes, List.append_assoc]
        · simp only [List.length_append, asciiBytes_length, u16le_length,
            u32le_length]
          decide
      have e12 : (toWav a a.frames).drop 12 =
          asciiBytes "fmt " ++
          (u32le 16 ++
          u16le 1 ++
          u16le a.channels ++
          u32le a.sample_rate ++
          u32le (a.sample_rate * a.channels * 2) ++
          u16le (a.channels * 2) ++
          u16le 16 ++
          asciiBytes "data" ++
          u32le (pcmBytes a.frames.flatten).length ++
          pcmBytes a.frames.flatten) := by
        refine drop_of_append 12 (asciiBytes "RIFF" ++
          u32le (36 + (pcmBytes a.frames.flatten).length) ++
          asciiBytes "WAVE") _ _ ?_ ?_
        · simp only [toWav, wavBytes, List.append_assoc]
        · simp only [List.length_append, asciiBytes_length, u16le_length,
            u32le_length]
          decide
      have e16 : (toWav a a.frames).drop 16 =
          u32le 16 ++
          (u16le 1 ++
          u16le a.channels ++
          u32le a.sample_rate ++
          u32le (a.sample_rate * a.channels * 2) ++
          u16le (a.channels * 2) ++
          u16le 16 ++
          asciiBytes "data" ++
          u32le (pcmBytes a.frames.flatten).length ++
          pcmBytes a.frames.flatten) := by
        refine drop_of_append 16 (asciiBytes "RIFF" ++
          u32le (36 + (pcmBytes a.frames.flatten).length) ++
          asciiBytes "WAVE" ++
          asciiBytes "fmt ") _ _ ?_ ?_
        · simp only [toWav, wavBytes, List.append_assoc]
        · simp only [List.length_append, asciiBytes_length, u16le_length,
            u32le_length]
          decide
      have e20 : (toWav a a.frames).drop 20 =
          u16le 1 ++
          (u16le a.channels ++
          u32le a.sample_rate ++
          u32le (a.sample_rate * a.channels * 2) ++
          u16le (a.channels * 2) ++
          u16le 16 ++
          asciiBytes "data" ++
          u32le (pcmBytes a.frames.flatten).length ++
          pcmBytes a.frames.flatten) := by
        refine drop_of_append 20 (asciiBytes "RIFF" ++
          u32le (36 + (pcmBytes a.frames.flatten).length) ++
          asciiBytes "WAVE" ++
          asciiBytes "fmt " ++
          u32le 16) _ _ ?_ ?_
        · simp only [toWav, wavBytes, List.append_assoc]
        · simp only [List.length_append, asciiBytes_length, u16le_length,
            u32le_length]
          decide
      have e22 : (toWav a a.frames).drop 22 =
          u16le a.channels ++
          (u32le a.sample_rate ++
          u32le (a.sample_rate * a.channels * 2) ++
          u16le (a.channels * 2) ++
          u16le 16 ++
          asciiBytes "data" ++
          u32le (pcmBytes a.frames.flatten).length ++
          pcmBytes a.frames.flatten) := by
        refine drop_of_append 22 (asciiBytes "RIFF" ++
          u32le (36 + (pcmBytes a.frames.flatten).length) ++
          asciiBytes "WAVE" ++
          asciiBytes "fmt " ++
          u32le 16 ++
          u16le 1) _ _ ?_ ?_
        · simp only [toWav, wavBytes, List.append_assoc]
        · simp only [List.length_append, asciiBytes_length, u16le_length,
            u32le_length]
          decide
      have e24 : (toWav a a.frames).drop 24 =
          u32le a.sample_rate ++
          (u32le (a.sample_rate * a.channels * 2) ++
          u16le (a.channels * 2) ++
          u16le 16 ++
          asciiBytes "data" ++
          u32le (pcmBytes a.frames.flatten).length ++
          pcmBytes a.frames.flatten) := by
        refine drop_of_append 24 (asciiBytes "RIFF" ++
          u32le (36 + (pcmBytes a.frames.flatten).length) ++
          asciiBytes "WAVE" ++
          asciiBytes "fmt " ++
          u32le 16 ++
          u16le 1 ++
          u16le a.channels) _ _ ?_ ?_
        · simp only [toWav, wavBytes, List.append_assoc]
        · simp only [List.length_append, asciiBytes_length, u16le_length,
            u32le_length]
          decide
      have e34 : (toWav a a.frames).drop 34 =
          u16le 16 ++
          (asciiBytes "data" ++
          u32le (pcmBytes a.frames.flatten).length ++
          pcmBytes a.frames.flatten) := by
        refine drop_of_append 34 (asciiBytes "RIFF" ++
          u32le (36 + (pcmBytes a.frames.flatten).length) ++
          asciiBytes "WAVE" ++
          asciiBytes "fmt " ++
          u32le 16 ++
          u16le 1 ++
          u16le a.channels ++
          u32le a.sample_rate ++
          u32le (a.sample_rate * a.channels * 2) ++
          u16le (a.channels * 2)) _ _ ?_ ?_
        · simp only [toWav, wavBytes, List.append_assoc]
        · simp only [List.length_append, asciiBytes_length, u16le_length,
            u32le_length]
          decide
      have e36 : (toWav a a.frames).drop 36 =
          asciiBytes "data" ++
          (u32le (pcmBytes a.frames.flatten).length ++
          pcmBytes a.frames.flatten) := by
        refine drop_of_append 36 (asciiBytes "RIFF" ++
          u32le (36 + (pcmBytes a.frames.flatten).length) ++
          asciiBytes "WAVE" ++
          asciiBytes "fmt " ++
          u32le 16 ++
          u16le 1 ++
          u16le a.channels ++
          u32le a.sample_rate ++
          u32le (a.sample_rate * a.channels * 2) ++
          u16le (a.channels * 2) ++
          u16le 16) _ _ ?_ ?_
        · simp only [toWav, wavBytes, List.append_assoc]
        · simp only [List.length_append, asciiBytes_length, u16le_length,
            u32le_length]
          decide
      have e40 : (toWav a a.frames).drop 40 =
          u32le (pcmBytes a.frames.flatten).length ++
          (pcmBytes a.frames.flatten) := by
        refine drop_of_append 40 (asciiBytes "RIFF" ++
          u32le (36 + (pcmBytes a.frames.flatten).length) ++
          asciiBytes "WAVE" ++
          asciiBytes "fmt " ++
          u32le 16 ++
          u16le 1 ++
          u16le a.channels ++
          u32le a.sample_rate ++
          u32le (a.sample_rate * a.channels * 2) ++
          u16le (a.channels * 2) ++
          u16le 16 ++
          asciiBytes "data") _ _ ?_ ?_
        · simp only [toWav, wavBytes, List.append_assoc]
        · simp only [List.length_append, asciiBytes_length, u16le_length,
            u32le_length]
          decide
      have e44 : (toWav a a.frames).drop 44 =
          pcmBytes a.frames.flatten := by
        refine drop_of_append 44 (asciiBytes "RIFF" ++
          u32le (36 + (pcmBytes a.frames.flatten).length) ++
          asciiBytes "WAVE" ++
          asciiBytes "fmt " ++
          u32le 16 ++
          u16le 1 ++
          u16le a.channels ++
          u32le a.sample_rate ++
          u32le (a.sample_rate * a.channels * 2) ++
          u16le (a.channels * 2) ++
          u16le 16 ++
          asciiBytes "data" ++
          u32le (pcmBytes a.frames.flatten).length) _ _ ?_ ?_
        · simp only [toWav, wavBytes, List.append_assoc]
        · simp only [List.length_append, asciiBytes_length, u16le_length,
            u32le_length]
          decide
      refine ⟨hfr, ?_, ?_, ?_, ?_, ?_, ?_, ?_, ?_, ?_, ?_, ?_, e44, ?_⟩
      · refine take_of_append 4 (asciiBytes "RIFF") (u32le (36 + (pcmBytes a.frames.flatten).length) ++
      (asciiBytes "WAVE" ++
      asciiBytes "fmt " ++
      u32le 16 ++
      u16le 1 ++
      u16le a.channels ++
      u32le a.sample_rate ++
      u32le (a.sample_rate * a.channels * 2) ++
      u16le (a.channels * 2) ++
      u16le 16 ++
      asciiBytes "data" ++
      u32le (pcmBytes a.frames.flatten).length ++
      pcmBytes a.frames.flatten)) _ ?_ ?_
        · simp only [toWav, wavBytes, List.append_assoc]
        · decide
      · rw [e4, readU32_cons, hpl]
        omega
      · rw [e8]
        refine take_of_append 4 _ _ _ rfl ?_
        decide
      · rw [e12]
        refine take_of_append 4 _ _ _ rfl ?_
        decide
      · rw [e16, readU32_cons]
      · rw [e20, readU16_cons]
      · rw [e22, readU16_cons]
        omega
      · rw [e24, readU32_cons]
        omega
      · rw [e34, readU16_cons]
      · rw [e36]
        refine take_of_append 4 _ _ _ rfl ?_
        decide
      · rw [e40, readU32_cons, hpl]
        omega
      · have r1 : ("RIFF" : String).length = 4 := rfl
        have r2 : ("WAVE" : String).length = 4 := rfl
        have r3 : ("fmt " : String).length = 4 := rfl
        have r4 : ("data" : String).length = 4 := rfl
        simp only [toWav, wavBytes, List.length_append, asciiBytes_length,
          u16le_length, u32le_length, r1, r2, r3, r4, hpl]

/-! ## Concrete witnesses and the C7 counterexample

The Batteries rational arithmetic operations are marked irreducible for the
elaborator, which blocks `decide`-style evaluation of closed rational facts;
the kernel reduces them regardless.  The local attribute below restores
elaborator reducibility inside this section only. -/

section WitnessEval

set_option allowUnsafeReducibility true

attribute [local semireducible] Rat.add Rat.sub Rat.mul Rat.div Rat.inv
  Rat.neg

/-- Witness for C2: a model that reports 429 on every attempt. -/
theorem throttle_six_attempts_five_sleeps_witness :
    (∀ k, k ≤ MAX_RETRIES →
      isThrottleOutcome ((fun _ => Outcome.err "429") k) = true)
    ∧ (sendWithExponentialBackoff (fun _ => Outcome.err "429")
        (fun _ => 1)).calls = 6
    ∧ (sendWithExponentialBackoff (fun _ => Outcome.err "429")
        (fun _ => 1)).waits.length = 5
    ∧ (sendWithExponentialBackoff (fun _ => Outcome.err "429")
        (fun _ => 1)).result = none :=
  ⟨fun _ _ => rfl,
    throttle_six_attempts_five_sleeps (fun _ => Outcome.err "429")
      (fun _ => 1) (fun _ _ => rfl)⟩

/-- Witness for C1: an API that reports 429 on every attempt of every model,
a primary model distinct from both fallbacks. -/
theorem format_degrades_to_raw_witness :
    (sendWithExponentialBackoff
      ((fun _ _ _ => Outcome.err "429") ("t {raw_text}".replace "{raw_text}"
        "raw") "m") ((fun _ _ => (1 : ℚ)) "m")).result = none
    ∧ (∀ m ∈ FALLBACK_MODELS, m ≠ "m" →
      (sendWithExponentialBackoff
        ((fun _ _ _ => Outcome.err "429") ("t {raw_text}".replace
          "{raw_text}" "raw") m) ((fun _ _ => (1 : ℚ)) m)).result = none)
    ∧ formatText (fun _ _ _ => Outcome.err "429") (fun _ _ => 1) "m" "raw"
        "t {raw_text}" = "raw" :=
  ⟨by decide, by decide,
    format_degrades_to_raw (fun _ _ _ => Outcome.err "429") (fun _ _ => 1)
      "m" "raw" "t {raw_text}" (by decide) (by decide)⟩

/-- Witness for C4: a model whose first call reports an authentication
error. -/
theorem nonthrottle_aborts_to_fallback_witness :
    ((0 : ℕ) ≤ MAX_RETRIES)
    ∧ (∀ k, k < 0 → isThrottleOutcome
        ((fun _ _ _ => Outcome.err "401 UNAUTHENTICATED")
          ("t {raw_text}".replace "{raw_text}" "raw") "m" k) = true)
    ∧ ((fun _ _ _ => Outcome.err "401 UNAUTHENTICATED")
        ("t {raw_text}".replace "{raw_text}" "raw") "m" 0 =
        Outcome.err "401 UNAUTHENTICATED")
    ∧ isThrottle "401 UNAUTHENTICATED" = false
    ∧ (sendWithExponentialBackoff
        ((fun _ _ _ => Outcome.err "401 UNAUTHENTICATED")
          ("t {raw_text}".replace "{raw_text}" "raw") "m")
        ((fun _ _ => (1 : ℚ)) "m")).waits.length = 0 :=
  ⟨by decide, by decide, rfl, by decide,
    (nonthrottle_aborts_to_fallback (fun _ _ _ =>
        Outcome.err "401 UNAUTHENTICATED") (fun _ _ => 1) "m" "raw"
      "t {raw_text}" "401 UNAUTHENTICATED" 0 (by decide) (by decide) rfl
      (by decide)).2.2.1⟩

/-- Witness for C3: every attempt reports 429 with a server-suggested retry
of 7.5 seconds; the first wait is 7.5 + 2 seconds. -/
theorem throttle_wait_policy_witness :
    (∀ _i : ℕ, 1/2 ≤ (1 : ℚ) ∧ (1 : ℚ) ≤ 3/2)
    ∧ 0 < (sendWithExponentialBackoff
        (fun _ => Outcome.err "429 Please retry in 7.5s")
        (fun _ : ℕ => (1 : ℚ))).waits.length
    ∧ ((fun _ : ℕ => Outcome.err "429 Please retry in 7.5s") 0 =
        Outcome.err "429 Please retry in 7.5s")
    ∧ ((∃ v, extractServerDelay "429 Please retry in 7.5s" = some v ∧
        (sendWithExponentialBackoff
          (fun _ => Outcome.err "429 Please retry in 7.5s")
          (fun _ : ℕ => (1 : ℚ))).waits.getD 0 0 = v + 2)
       ∨ (extractServerDelay "429 Please retry in 7.5s" = none ∧
        (sendWithExponentialBackoff
          (fun _ => Outcome.err "429 Please retry in 7.5s")
          (fun _ : ℕ => (1 : ℚ))).waits.getD 0 0 =
          min (delaySeq 0 * (fun _ : ℕ => (1 : ℚ)) 0) MAX_DELAY)) :=
  ⟨fun _ => ⟨by decide, by decide⟩, by decide, rfl,
    (throttle_wait_policy (fun _ => Outcome.err "429 Please retry in 7.5s")
      (fun _ : ℕ => (1 : ℚ))
      (fun _ => ⟨show (1 : ℚ)/2 ≤ 1 by decide, show (1 : ℚ) ≤ 3/2 by decide⟩)
      0 "429 Please retry in 7.5s" (by decide) rfl).1⟩

/-- Witness for C5: the machine in its initial state, PTT pressed then
released. -/
theorem ptt_down_up_once_witness :
    (⟨RecordingState.idle, 0⟩ : IMState).state = RecordingState.idle
    ∧ (runEvents ⟨RecordingState.idle, 0⟩
        [Ev.ptt EventType.down 0, Ev.ptt EventType.up 1]).2 =
      [Effect.start, Effect.stop] :=
  ⟨rfl, (ptt_down_up_once ⟨RecordingState.idle, 0⟩ rfl 0 1).1⟩

/-- Witness for C6: an HF key-down 1 s after the stored timestamp toggles
Idle to hands-free recording; one 0.1 s after it is discarded. -/
theorem hf_debounce_toggle_witness :
    ((3 : ℚ)/10 ≤ 1 - (⟨RecordingState.idle, 0⟩ : IMState).lastHfTime)
    ∧ onHf ⟨RecordingState.idle, 0⟩ EventType.down 1 =
        (⟨RecordingState.recordingHF, 1⟩, [Effect.start])
    ∧ ((11 : ℚ)/10 - (⟨RecordingState.recordingHF, 1⟩ : IMState).lastHfTime
        < 3/10)
    ∧ onHf ⟨RecordingState.recordingHF, 1⟩ EventType.down (11/10) =
        (⟨RecordingState.recordingHF, 1⟩, []) :=
  ⟨by decide,
    (hf_debounce_toggle ⟨RecordingState.idle, 0⟩ 1).2.1 (by decide) rfl,
    by decide,
    (hf_debounce_toggle ⟨RecordingState.recordingHF, 1⟩ (11/10)).1
      (by decide)⟩

/-- C7 counterexample: an HF key-down during PTT recording is not a complete
no-op.  It leaves the machine changed (the debounce timestamp moves), and the
change is observable: with the HF key-down at t = 1 inserted during the PTT
hold, the HF key-down at t = 1.2 after PTT release is debounced and the run
emits only [start, stop]; without it the same later key-down toggles
hands-free recording and the run emits [start, stop, start]. -/
theorem hf_during_ptt_counterexample :
    onHf ⟨RecordingState.recordingPTT, 0⟩ EventType.down 1 ≠
      (⟨RecordingState.recordingPTT, 0⟩, ([] : List Effect))
    ∧ (runEvents ⟨RecordingState.idle, 0⟩
        [Ev.ptt EventType.down 0, Ev.hf EventType.down 1,
         Ev.ptt EventType.up (11/10), Ev.hf EventType.down (6/5)]).2 =
      [Effect.start, Effect.stop]
    ∧ (runEvents ⟨RecordingState.idle, 0⟩
        [Ev.ptt EventType.down 0,
         Ev.ptt EventType.up (11/10), Ev.hf EventType.down (6/5)]).2 =
      [Effect.start, Effect.stop, Effect.start] :=
  ⟨by decide, by decide, by decide⟩

/-- Witness for the amended C7: a machine PTT-recording with an old debounce
timestamp receiving an HF key-down. -/
theorem hf_during_ptt_amended_witness :
    (⟨RecordingState.recordingPTT, 0⟩ : IMState).state =
      RecordingState.recordingPTT
    ∧ (onHf ⟨RecordingState.recordingPTT, 0⟩ EventType.down 1).1.state =
      RecordingState.recordingPTT
    ∧ (onHf ⟨RecordingState.recordingPTT, 0⟩ EventType.down 1).2 = []
    ∧ ((3 : ℚ)/10 ≤ 1 - (⟨RecordingState.recordingPTT, 0⟩ :
        IMState).lastHfTime)
    ∧ (onHf ⟨RecordingState.recordingPTT, 0⟩ EventType.down 1).1.lastHfTime
      = 1 :=
  ⟨rfl, (hf_during_ptt_amended ⟨RecordingState.recordingPTT, 0⟩ 1 rfl).1,
    (hf_during_ptt_amended ⟨RecordingState.recordingPTT, 0⟩ 1 rfl).2.1,
    by decide,
    (hf_during_ptt_amended ⟨RecordingState.recordingPTT, 0⟩ 1 rfl).2.2.1
      (by decide)⟩

/-- Witness for C8: an idle orchestrator receiving two stops, and a pipeline
environment on the fully successful path. -/
theorem single_flight_stop_witness :
    ((⟨false, 0⟩ : OrchState).isProcessing = false)
    ∧ (onRecordingStop (onRecordingStop ⟨false, 0⟩)).launched =
      (⟨false, 0⟩ : OrchState).launched + 1
    ∧ onRecordingStop (onRecordingStop ⟨false, 0⟩) =
      onRecordingStop ⟨false, 0⟩
    ∧ (processRecording ⟨1, some [], fun _ => Except.ok "hello", none, "p",
        fun _ => Except.ok ()⟩).count Act.outputCall = 1 :=
  ⟨rfl,
    (single_flight_stop ⟨false, 0⟩ rfl ⟨1, some [],
      fun _ => Except.ok "hello", none, "p", fun _ => Except.ok ()⟩).1,
    (single_flight_stop ⟨false, 0⟩ rfl ⟨1, some [],
      fun _ => Except.ok "hello", none, "p", fun _ => Except.ok ()⟩).2.1,
    (single_flight_stop ⟨false, 0⟩ rfl ⟨1, some [],
      fun _ => Except.ok "hello", none, "p",
      fun _ => Except.ok ()⟩).2.2.2 [] "hello" (by decide) rfl rfl
      (by decide) (fun _ => rfl)⟩

/-- Witness for C9: a recording of zero duration runs only the cleanup
actions. -/
theorem processing_always_cleans_up_witness :
    ((0 : ℚ) < 3/10)
    ∧ processRecording ⟨0, none, fun _ => Except.ok "", none, "p",
        fun _ => Except.ok ()⟩ =
      [Act.clearFlag, Act.hideIndicator, Act.trayIdle] :=
  ⟨by decide,
    ((processing_always_cleans_up ⟨0, none, fun _ => Except.ok "", none, "p",
      fun _ => Except.ok ()⟩).2 (by decide)).1⟩

/-- Witness for C10: a capture of one two-sample frame at 16000 Hz mono. -/
theorem wav_snapshot_exact_witness :
    ((⟨16000, 1, false, [[1, -2]]⟩ : AudioCaptureM).channels < 65536)
    ∧ ((⟨16000, 1, false, [[1, -2]]⟩ : AudioCaptureM).sample_rate <
        4294967296)
    ∧ (36 + 2 * (⟨16000, 1, false, [[1, -2]]⟩ :
        AudioCaptureM).frames.flatten.length < 4294967296)
    ∧ (∀ w, getAudioData ⟨16000, 1, false, [[1, -2]]⟩ = some w →
        w.drop 44 = pcmBytes ((⟨16000, 1, false, [[1, -2]]⟩ :
          AudioCaptureM).frames.flatten)) :=
  ⟨by decide, by decide, by decide,
    fun w hw => ((wav_snapshot_exact ⟨16000, 1, false, [[1, -2]]⟩
      (by decide) (by decide) (by decide)).2 w
      hw).2.2.2.2.2.2.2.2.2.2.2.2.1⟩

end WitnessEval
